/-
Verification of the static code-analysis engine in `src/Code.py`
(class `CodeAnalyzer`), against its natural-language specification.

Shallow embedding conventions:
  * Python's `ast` trees are modelled by the inductive `Node` below, covering
    every node class that `CodeAnalyzer` inspects.  Mirroring CPython,
    `iter_child_nodes` of a `BoolOp` yields the operator instance
    (`ast.And` / `ast.Or`) as a child node, so `ast.walk` visits it; this is
    modelled by the `opNode` constructor appearing in `children` of `boolOp`.
  * `ast.walk` is breadth-first (a deque seeded with the root, extended with
    `iter_child_nodes` of each popped node); `walk` below reproduces that.
  * Parsing itself is out of scope (an external capability per the spec);
    a file's parse outcome is data: `ParseResult` is either a tree or a
    syntax error carrying the optional reported line.
  * Machine floats of the maintainability computation are modelled by `ℚ`.
  * Issue message strings are abbreviated transliterations of the Japanese
    originals; `file`, `line`, `severity` and `category` are modelled exactly.
-/
import Mathlib

namespace AliceCode

/-- The two Python boolean operators, `ast.And` and `ast.Or`. -/
inductive BoolKind where
  | andK : BoolKind
  | orK : BoolKind
deriving DecidableEq, Repr

/-- Python AST nodes, restricted to the classes `CodeAnalyzer` inspects.
Line numbers are carried where the analyzer reads them. -/
inductive Node where
  | module (body : List Node)
  | functionDef (fname : String) (nargs : Nat) (lineno endLineno : Nat) (body : List Node)
  | classDef (cname : String) (lineno : Nat) (body : List Node)
  | ifStmt (test : Node) (body orelse : List Node) (lineno : Nat)
  | whileStmt (test : Node) (body orelse : List Node) (lineno : Nat)
  | forStmt (target iter : Node) (body orelse : List Node) (lineno : Nat)
  | withStmt (body : List Node) (lineno : Nat)
  | tryStmt (body handlers orelse finalbody : List Node)
  | exceptHandler (body : List Node)
  | boolOp (op : BoolKind) (values : List Node)
  | opNode (op : BoolKind)
  | importStmt (lineno : Nat)
  | importFrom (lineno : Nat)
  | exprStmt (value : Node) (lineno : Nat)
  | nameExpr (id : String) (lineno : Nat)
  | constant (lineno : Nat)
  | passStmt (lineno : Nat)

namespace Node

/-- Model of `ast.iter_child_nodes`: the direct AST children, in field order.
For `BoolOp` the fields are `(op, values)`, and the operator instance is
itself an AST node, so it is yielded first. -/
def children : Node → List Node
  | module body => body
  | functionDef _ _ _ _ body => body
  | classDef _ _ body => body
  | ifStmt test body orelse _ => test :: (body ++ orelse)
  | whileStmt test body orelse _ => test :: (body ++ orelse)
  | forStmt target iter body orelse _ => target :: iter :: (body ++ orelse)
  | withStmt body _ => body
  | tryStmt body handlers orelse finalbody => body ++ handlers ++ orelse ++ finalbody
  | exceptHandler body => body
  | boolOp op values => opNode op :: values
  | opNode _ => []
  | importStmt _ => []
  | importFrom _ => []
  | exprStmt value _ => [value]
  | nameExpr _ _ => []
  | constant _ => []
  | passStmt _ => []

mutual
/-- Number of nodes of a tree (the node itself plus all descendants),
used as the termination measure for the breadth-first walk. -/
def size : Node → Nat
  | module body => 1 + sizeL body
  | functionDef _ _ _ _ body => 1 + sizeL body
  | classDef _ _ body => 1 + sizeL body
  | ifStmt test body orelse _ => 1 + size test + sizeL body + sizeL orelse
  | whileStmt test body orelse _ => 1 + size test + sizeL body + sizeL orelse
  | forStmt target iter body orelse _ =>
      1 + size target + size iter + sizeL body + sizeL orelse
  | withStmt body _ => 1 + sizeL body
  | tryStmt body handlers orelse finalbody =>
      1 + sizeL body + sizeL handlers + sizeL orelse + sizeL finalbody
  | exceptHandler body => 1 + sizeL body
  | boolOp _ values => 2 + sizeL values
  | opNode _ => 1
  | importStmt _ => 1
  | importFrom _ => 1
  | exprStmt value _ => 1 + size value
  | nameExpr _ _ => 1
  | constant _ => 1
  | passStmt _ => 1

/-- Total size of a list of trees. -/
def sizeL : List Node → Nat
  | [] => 0
  | n :: ns => size n + sizeL ns
end

theorem sizeL_append (l₁ l₂ : List Node) : sizeL (l₁ ++ l₂) = sizeL l₁ + sizeL l₂ := by
  induction l₁ with
  | nil => simp [sizeL]
  | cons n ns ih =>
    simp only [List.cons_append, sizeL, List.append_eq] at ih ⊢
    omega

theorem size_pos (n : Node) : 0 < size n := by
  cases n <;> simp [size]

theorem sizeL_children_lt (n : Node) : sizeL (children n) < size n := by
  cases n <;> simp [children, size, sizeL, sizeL_append] <;> omega

theorem size_le_sizeL_of_mem {n : Node} {l : List Node} (h : n ∈ l) :
    size n ≤ sizeL l := by
  induction l with
  | nil => cases h
  | cons m ms ih =>
    rcases List.mem_cons.mp h with rfl | h'
    · simp only [sizeL]; omega
    · have := ih h'
      simp only [sizeL]; omega

mutual
/-- A termination weight: like `size`, but each list element additionally
weighs 1, so that `weightL cs` strictly dominates both the weight of each
member of `cs` and the weight of any tail of `cs`. -/
def weight : Node → Nat
  | module body => 1 + weightL body
  | functionDef _ _ _ _ body => 1 + weightL body
  | classDef _ _ body => 1 + weightL body
  | ifStmt test body orelse _ => 2 + weight test + weightL body + weightL orelse
  | whileStmt test body orelse _ => 2 + weight test + weightL body + weightL orelse
  | forStmt target iter body orelse _ =>
      3 + weight target + weight iter + weightL body + weightL orelse
  | withStmt body _ => 1 + weightL body
  | tryStmt body handlers orelse finalbody =>
      1 + weightL body + weightL handlers + weightL orelse + weightL finalbody
  | exceptHandler body => 1 + weightL body
  | boolOp _ values => 3 + weightL values
  | opNode _ => 1
  | importStmt _ => 1
  | importFrom _ => 1
  | exprStmt value _ => 2 + weight value
  | nameExpr _ _ => 1
  | constant _ => 1
  | passStmt _ => 1

/-- Weight of a list of trees (1 extra per element). -/
def weightL : List Node → Nat
  | [] => 0
  | n :: ns => 1 + weight n + weightL ns
end

theorem weightL_append (l₁ l₂ : List Node) :
    weightL (l₁ ++ l₂) = weightL l₁ + weightL l₂ := by
  induction l₁ with
  | nil => simp only [List.nil_append, weightL]; omega
  | cons n ns ih =>
    simp only [List.cons_append, weightL, List.append_eq] at ih ⊢
    omega

theorem weightL_children_lt (n : Node) : weightL (children n) < weight n := by
  cases n <;> simp [children, weight, weightL, weightL_append] <;> omega

/-- Model of `ast.walk` on a work queue: pop the front node, yield it, push its
children at the back (CPython uses a `deque` the same way). -/
def walkAux : List Node → List Node
  | [] => []
  | n :: todo => n :: walkAux (todo ++ children n)
termination_by l => sizeL l
decreasing_by
  simp [sizeL, sizeL_append]
  have := sizeL_children_lt n
  omega

/-- Model of `ast.walk tree`: every node of the tree, breadth-first. -/
def walk (tree : Node) : List Node := walkAux [tree]

end Node

/-! ### Python string primitives used by the analyzer -/

/-- The ASCII whitespace characters removed by Python's `str.strip()`
(the analyzer's inputs are source lines; non-ASCII whitespace is not
relevant to any rule). -/
def pyWhitespace (c : Char) : Bool :=
  c == ' ' || c == '\t' || c == '\n' || c == '\r' || c == '\x0b' || c == '\x0c'

/-- Python `str.strip()` on a character list. -/
def stripList (l : List Char) : List Char :=
  ((l.dropWhile pyWhitespace).reverse.dropWhile pyWhitespace).reverse

/-- Python `line.strip()`. -/
def pyStrip (s : String) : String := ⟨stripList s.toList⟩

/-- Python `s.startswith(p)`. -/
def pyStartsWith (s p : String) : Bool := p.toList.isPrefixOf s.toList

/-- Python `sub in hay` for strings: `sub` occurs as a contiguous substring. -/
def containsSub (sub : List Char) : List Char → Bool
  | [] => sub.isEmpty
  | c :: rest => sub.isPrefixOf (c :: rest) || containsSub sub rest

/-- Python's `sub in hay`. -/
def pyContains (hay sub : String) : Bool := containsSub sub.toList hay.toList

/-- Python `s.lower()` (ASCII case folding; the needles are ASCII). -/
def pyLower (s : String) : String := ⟨s.toList.map Char.toLower⟩

/-- Python `content.split(sep)` on a character list: split at every separator
occurrence, keeping empty pieces (`"a\n\n".split('\n') == ['a','','']`). -/
def splitChar (sep : Char) : List Char → List (List Char)
  | [] => [[]]
  | c :: rest =>
    match splitChar sep rest with
    | [] => [[]]
    | h :: t => if c == sep then [] :: h :: t else (c :: h) :: t

/-- Python `content.split('\n')` (and, for any `sep`, `content.split(sep)`). -/
def pySplit (content : String) (sep : Char) : List String :=
  (splitChar sep content.toList).map fun cs => ⟨cs⟩

/-- Lexicographic path order (Python compares `Path` objects
lexicographically by their case-normalized string parts; on POSIX this is
the lexicographic character order of the path strings). -/
def charListLe : List Char → List Char → Bool
  | [], _ => true
  | _ :: _, [] => false
  | a :: as, b :: bs => a < b || (a == b && charListLe as bs)

/-- Path ordering used by `sorted(filtered_files)`. -/
def pathLe (a b : String) : Bool := charListLe a.toList b.toList

/-- A regex word character, `\w` = `[A-Za-z0-9_]`. -/
def isWordChar (c : Char) : Bool := c.isAlphanum || c == '_'

/-- The marker tokens of the rule `\b(TODO|FIXME|HACK|XXX)\b`. -/
def markerTokens : List (List Char) :=
  ["TODO".toList, "FIXME".toList, "HACK".toList, "XXX".toList]

/-- Does some marker token match at this position, with word boundaries on
both sides?  `prev` is the character before the position (`none` at the
start of the line). -/
def markerAt (prev : Option Char) (suffix : List Char) : Bool :=
  markerTokens.any fun t =>
    t.isPrefixOf suffix &&
    (match prev with
     | none => true
     | some c => !isWordChar c) &&
    (match suffix.drop t.length with
     | [] => true
     | c :: _ => !isWordChar c)

/-- Scan of all positions of the line. -/
def hasMarkerAux (prev : Option Char) : List Char → Bool
  | [] => false
  | c :: rest => markerAt prev (c :: rest) || hasMarkerAux (some c) rest

/-- Whether `re.search(r"\b(TODO|FIXME|HACK|XXX)\b", line)` is not `None`. -/
def hasMarker (line : String) : Bool := hasMarkerAux none line.toList

/-! ### Data model: thresholds, issues, metrics -/

/-- Shape of `CodeAnalyzer.THRESHOLDS`. -/
structure Thresholds where
  max_line_length : Nat
  max_function_length : Nat
  max_complexity : Nat
  min_maintainability : Nat
  max_function_params : Nat
deriving DecidableEq, Repr

/-- The default threshold configuration of `CodeAnalyzer`. -/
def THRESHOLDS : Thresholds :=
  { max_line_length := 120
    max_function_length := 50
    max_complexity := 20
    min_maintainability := 50
    max_function_params := 5 }

/-- Dataclass `CodeIssue`. -/
structure CodeIssue where
  file : String
  line : Nat
  severity : String
  category : String
  message : String
  suggestion : String
deriving DecidableEq, Repr

/-- Dataclass `CodeMetrics`.  The float `maintainability_index` is modelled
by an exact rational. -/
structure CodeMetrics where
  file : String
  lines_of_code : Nat
  comment_lines : Nat
  blank_lines : Nat
  functions : Nat
  classes : Nat
  complexity : Nat
  maintainability_index : ℚ
  max_function_length : Nat
  imports_count : Nat
deriving DecidableEq, Repr

/-- Outcome of `ast.parse` on a file's text: a tree, or a `SyntaxError`
carrying the (optional) reported line.  Parsing itself is the external
capability the spec assumes; a file's parse outcome is part of its data. -/
inductive ParseResult where
  | ok (tree : Node)
  | err (lineno : Option Nat) (msg : String)

/-- A source file as the analyzer sees it: its path relative to the project
root, its raw text, and the outcome of parsing that text. -/
structure SourceFile where
  path : String
  content : String
  parsed : ParseResult

/-! ### Metric Calculator (`_calculate_metrics` and helpers) -/

/-- Per-node contribution of `_calculate_complexity`'s `if/elif` chain:
`+1` for `If`/`While`/`For`/`ExceptHandler`, `+(len(values) - 1)` for a
`BoolOp`, `+1` for an `And`/`Or` operator node, `0` otherwise.  (The
constructor classes are pairwise disjoint, so the chain is a case split.) -/
def complexityContrib : Node → Nat
  | .ifStmt _ _ _ _ => 1
  | .whileStmt _ _ _ _ => 1
  | .forStmt _ _ _ _ _ => 1
  | .exceptHandler _ => 1
  | .boolOp _ values => values.length - 1
  | .opNode _ => 1
  | _ => 0

/-- Model of `_calculate_complexity`: start at 1 and accumulate over `ast.walk`. -/
def calculate_complexity (tree : Node) : Nat :=
  1 + ((Node.walk tree).map complexityContrib).sum

/-- The value `end_lineno - lineno` of a function-definition node, `none` otherwise. -/
def funcLength : Node → Option Nat
  | .functionDef _ _ lineno endLineno _ => some (endLineno - lineno)
  | _ => none

/-- Model of `_get_max_function_length`: maximum function length over the walk,
starting from 0. -/
def get_max_function_length (tree : Node) : Nat :=
  ((Node.walk tree).filterMap funcLength).foldl max 0

/-- Is the node an `ast.FunctionDef`? -/
def isFunctionDef : Node → Bool
  | .functionDef _ _ _ _ _ => true
  | _ => false

/-- Is the node an `ast.ClassDef`? -/
def isClassDef : Node → Bool
  | .classDef _ _ _ => true
  | _ => false

/-- Is the node an `ast.Import` or `ast.ImportFrom`? -/
def isImportNode : Node → Bool
  | .importStmt _ => true
  | .importFrom _ => true
  | _ => false

/-- Model of `_calculate_maintainability`: the derived 0–100 score, on exact
rationals. -/
def calculate_maintainability (loc complexity comments : Nat) : ℚ :=
  if loc = 0 then 100.0
  else
    let comment_ratio : ℚ := if 0 < loc then (comments : ℚ) / (loc : ℚ) else 0
    let complexity_penalty : ℚ := min ((complexity : ℚ) / 50) 1.0
    let size_penalty : ℚ := min ((loc : ℚ) / 1000) 1.0 * 0.5
    let score := 100 - complexity_penalty * 40 - size_penalty * 20 + comment_ratio * 15
    max 0.0 (min 100.0 score)

/-- Is the line counted as code by `_calculate_metrics`
(`l.strip() and not l.strip().startswith('#')`)? -/
def isCodeLine (l : String) : Bool :=
  !(pyStrip l).isEmpty && !pyStartsWith (pyStrip l) "#"

/-- Is the line a comment-only line (`l.strip().startswith('#')`)? -/
def isCommentLine (l : String) : Bool := pyStartsWith (pyStrip l) "#"

/-- Is the line blank (`not l.strip()`)? -/
def isBlankLine (l : String) : Bool := (pyStrip l).isEmpty

/-- Model of `_calculate_metrics`: line counts from the raw text; structural metrics
from the tree when parsing succeeded, all 0 on a `SyntaxError`. -/
def calculate_metrics (relPath : String) (content : String)
    (parsed : ParseResult) : CodeMetrics :=
  let lines := pySplit content '\n'
  let loc := lines.countP isCodeLine
  let comment_lines := lines.countP isCommentLine
  let blank_lines := lines.countP isBlankLine
  let functions := match parsed with
    | .ok tree => (Node.walk tree).countP isFunctionDef
    | .err _ _ => 0
  let classes := match parsed with
    | .ok tree => (Node.walk tree).countP isClassDef
    | .err _ _ => 0
  let complexity := match parsed with
    | .ok tree => calculate_complexity tree
    | .err _ _ => 0
  let max_func_length := match parsed with
    | .ok tree => get_max_function_length tree
    | .err _ _ => 0
  let imports := match parsed with
    | .ok tree => (Node.walk tree).countP isImportNode
    | .err _ _ => 0
  { file := relPath
    lines_of_code := loc
    comment_lines := comment_lines
    blank_lines := blank_lines
    functions := functions
    classes := classes
    complexity := complexity
    maintainability_index := calculate_maintainability loc complexity comment_lines
    max_function_length := max_func_length
    imports_count := imports }

/-! ### Issue Detector (`_detect_issues` and helpers) -/

/-- Is the node one of the classes `_get_nesting_level` descends into
(`ast.If`, `ast.For`, `ast.While`, `ast.With`)? -/
def isNestKind : Node → Bool
  | .ifStmt _ _ _ _ => true
  | .forStmt _ _ _ _ _ => true
  | .whileStmt _ _ _ _ => true
  | .withStmt _ _ => true
  | _ => false

mutual
/-- Model of `_get_nesting_level(node, level)`: the maximum, over chains of nested
conditional/loop/`with` children below `node`, of the level reached,
starting from `level`. -/
def get_nesting_level (n : Node) (level : Nat) : Nat :=
  nestLoop (Node.children n) level level
termination_by (Node.weight n, 0)
decreasing_by
  exact Prod.Lex.left _ _ (Node.weightL_children_lt _)

/-- The `for child in ast.iter_child_nodes(node)` loop of
`_get_nesting_level`; `level` is the level of the node whose children are
scanned, `maxLevel` the running maximum. -/
def nestLoop (cs : List Node) (level maxLevel : Nat) : Nat :=
  match cs with
  | [] => maxLevel
  | c :: rest =>
    if isNestKind c then
      nestLoop rest level (max maxLevel (get_nesting_level c (level + 1)))
    else
      nestLoop rest level maxLevel
termination_by (Node.weightL cs, 1)
decreasing_by
  all_goals apply Prod.Lex.left
  all_goals simp only [Node.weightL]
  all_goals omega
end

/-- The deep-nesting check on one `If`/`For`/`While` node `n` at line
`lineno`: the nesting threshold 3 is hardcoded in the source. -/
def nestingIssue (rel_path : String) (n : Node) (lineno : Nat) : List CodeIssue :=
  let nest_level := get_nesting_level n 0
  if nest_level > 3 then
    [{ file := rel_path, line := lineno, severity := "high",
       category := "complexity",
       message := "nesting is too deep (level " ++ toString nest_level ++ ")",
       suggestion := "reduce nesting with early returns or extracted functions" }]
  else []

/-- The issues `_detect_ast_issues` emits while visiting one node of the
walk: the long-function and too-many-parameters checks on a
`FunctionDef`, the deep-nesting check on an `If`/`For`/`While`. -/
def nodeIssues (t : Thresholds) (rel_path : String) (n : Node) : List CodeIssue :=
  match n with
  | .functionDef fname nargs lineno endLineno _ =>
    (if endLineno - lineno > t.max_function_length then
      [{ file := rel_path, line := lineno, severity := "medium",
         category := "complexity",
         message := "function " ++ fname ++ " is too long (" ++ toString (endLineno - lineno) ++ " lines)",
         suggestion := "split the function" }]
     else []) ++
    (if nargs > t.max_function_params then
      [{ file := rel_path, line := lineno, severity := "medium",
         category := "design",
         message := "function " ++ fname ++ " has too many parameters (" ++ toString nargs ++ ")",
         suggestion := "bundle the parameters into an object" }]
     else [])
  | .ifStmt test body orelse lineno =>
    nestingIssue rel_path (.ifStmt test body orelse lineno) lineno
  | .forStmt target iter body orelse lineno =>
    nestingIssue rel_path (.forStmt target iter body orelse lineno) lineno
  | .whileStmt test body orelse lineno =>
    nestingIssue rel_path (.whileStmt test body orelse lineno) lineno
  | _ => []

/-- Model of `_detect_ast_issues`: walk the tree, emitting the per-node issues in
walk order. -/
def detect_ast_issues (t : Thresholds) (tree : Node) (rel_path : String) :
    List CodeIssue :=
  (Node.walk tree).flatMap (nodeIssues t rel_path)

/-- The banner glyphs that exempt a `print(` line from the debug-print
rule (`if not any(keyword in line for keyword in [...])`). -/
def bannerKeywords : List String := ["===", "---", "✅", "❌", "📊", "💡"]

/-- The condition under which `_detect_text_issues` emits a `low`/`debug`
issue for a line: stripped content starts with `print(`, the lowercased
line contains neither `"logger"` nor `"log"`, and no banner glyph occurs
in the line. -/
def debugPrintCondition (line : String) : Bool :=
  pyStartsWith (pyStrip line) "print(" &&
  !pyContains (pyLower line) "logger" &&
  !pyContains (pyLower line) "log" &&
  !(bannerKeywords.any fun keyword => pyContains line keyword)

/-- The issues `_detect_text_issues` emits for the 1-based line `i` with
text `line`, in rule order: long line, marker comment, debug print. -/
def textLineIssues (t : Thresholds) (rel_path : String) (i : Nat)
    (line : String) : List CodeIssue :=
  (if line.length > t.max_line_length then
    [{ file := rel_path, line := i, severity := "low", category := "style",
       message := "line is too long (" ++ toString line.length ++ " chars)",
       suggestion := "split the line" }]
   else []) ++
  (if hasMarker line then
    [{ file := rel_path, line := i, severity := "low", category := "todo",
       message := "a TODO/FIXME/HACK/XXX comment remains",
       suggestion := "plan the pending work" }]
   else []) ++
  (if debugPrintCondition line then
    [{ file := rel_path, line := i, severity := "low", category := "debug",
       message := "a debug print statement may remain",
       suggestion := "use a logger, or remove it if unneeded" }]
   else [])

/-- Model of `_detect_text_issues`: `for i, line in enumerate(lines, 1)`, emitting
each line's issues in order. -/
def detect_text_issues (t : Thresholds) (lines : List String)
    (rel_path : String) : List CodeIssue :=
  (lines.enumFrom 1).flatMap fun p => textLineIssues t rel_path p.1 p.2

/-- Model of `_detect_issues`: AST-based issues (or, when parsing failed, the single
`critical`/`syntax` issue at `e.lineno if e.lineno else 0`), followed by
the text-based issues.  The function is total: a parse failure is data,
never an exception escaping to the caller. -/
def detect_issues (t : Thresholds) (f : SourceFile) : List CodeIssue :=
  let lines := pySplit f.content '\n'
  (match f.parsed with
   | .ok tree => detect_ast_issues t tree f.path
   | .err lineno msg =>
     [{ file := f.path, line := lineno.getD 0, severity := "critical",
        category := "syntax",
        message := "syntax error: " ++ msg,
        suggestion := "fix the syntax" }]) ++
  detect_text_issues t lines f.path

/-! ### Aggregator/Reporter (`analyze_project`, `_generate_report`) -/

/-- The exclusion tokens of `_get_python_files`. -/
def excludePatterns : List String := ["venv", "__pycache__", ".git", "build", "dist"]

/-- The filtering and sorting step of `_get_python_files`: drop any path
containing an exclusion token, then `sorted(...)` (path order modelled as
the lexicographic string order). -/
def filter_sort_files (found : List String) : List String :=
  (found.filter fun f => !(excludePatterns.any fun pattern => pyContains f pattern)).mergeSort
    pathLe

/-- Mutable state of a `CodeAnalyzer` instance: `self.issues` and
`self.metrics`, both append-only lists. -/
structure AnalyzerState where
  issues : List CodeIssue
  metrics : List CodeMetrics

/-- Model of `_analyze_file`: append the file's metrics to `self.metrics` and the
file's issues to `self.issues`. -/
def analyze_file (t : Thresholds) (st : AnalyzerState) (f : SourceFile) :
    AnalyzerState :=
  { issues := st.issues ++ detect_issues t f
    metrics := st.metrics ++ [calculate_metrics f.path f.content f.parsed] }

/-- Issue counts by severity (`severity_counts` in `_generate_report`). -/
structure SeverityCounts where
  critical : Nat
  high : Nat
  medium : Nat
  low : Nat
deriving DecidableEq, Repr

/-- The `summary` block of the report. -/
structure Summary where
  total_loc : Nat
  total_functions : Nat
  total_classes : Nat
  total_imports : Nat
  avg_maintainability : ℚ
  max_complexity : Nat
deriving DecidableEq, Repr

/-- The `issues` block of the report. -/
structure IssuesBlock where
  total : Nat
  by_severity : SeverityCounts
deriving DecidableEq, Repr

/-- The serialized analysis result (`self.analysis_result`). -/
structure Report where
  timestamp : String
  thresholds : Thresholds
  summary : Summary
  issues : IssuesBlock
  metrics : List CodeMetrics
  issues_detail : List CodeIssue

/-- Python's `round(x, 2)` (round half to even), on exact rationals. -/
def pyRound2 (q : ℚ) : ℚ :=
  let y := q * 100
  let f : ℤ := ⌊y⌋
  let n : ℤ :=
    if y - f < 1 / 2 then f
    else if 1 / 2 < y - f then f + 1
    else if Even f then f else f + 1
  (n : ℚ) / 100

/-- Model of `_generate_report`: summary statistics, severity counts, and the two
serialized arrays.  `issues_detail` is `[asdict(i) for i in self.issues]`:
the issue list exactly as collected, in detection order. -/
def generate_report (t : Thresholds) (timestamp : String) (st : AnalyzerState) :
    Report :=
  let total_loc := (st.metrics.map CodeMetrics.lines_of_code).sum
  let total_functions := (st.metrics.map CodeMetrics.functions).sum
  let total_classes := (st.metrics.map CodeMetrics.classes).sum
  let total_imports := (st.metrics.map CodeMetrics.imports_count).sum
  let avg_maintainability : ℚ :=
    if st.metrics.length ≠ 0 then
      (st.metrics.map CodeMetrics.maintainability_index).sum / (st.metrics.length : ℚ)
    else 0
  let max_complexity := (st.metrics.map CodeMetrics.complexity).foldl max 0
  let severity_counts : SeverityCounts :=
    { critical := st.issues.countP fun i => i.severity == "critical"
      high := st.issues.countP fun i => i.severity == "high"
      medium := st.issues.countP fun i => i.severity == "medium"
      low := st.issues.countP fun i => i.severity == "low" }
  { timestamp := timestamp
    thresholds := t
    summary :=
      { total_loc := total_loc
        total_functions := total_functions
        total_classes := total_classes
        total_imports := total_imports
        avg_maintainability := pyRound2 avg_maintainability
        max_complexity := max_complexity }
    issues :=
      { total := st.issues.length
        by_severity := severity_counts }
    metrics := st.metrics
    issues_detail := st.issues }

/-- Model of `analyze_project`, given the unsorted enumeration `found` of candidate
paths (the raw `rglob` output) and the per-file read-and-parse outcome
`readFile` (reading a file is deterministic within a run): filter and sort
the enumeration, analyze each file in order, and generate the report. -/
def analyze_project (t : Thresholds) (timestamp : String) (found : List String)
    (readFile : String → SourceFile) : Report :=
  let files := filter_sort_files found
  let st := files.foldl (fun st p => analyze_file t st (readFile p)) ⟨[], []⟩
  generate_report t timestamp st

/-! ### Filesystem model for the enumerator -/

/-- A filesystem: the set of existing directories and of existing files. -/
structure FileSystem where
  dirs : List String
  files : List String

/-- Model of `Path(root).rglob("*.py")`, with CPython 3.11 pathlib
semantics: on a root that is not an existing directory the iterator yields
nothing and raises no error; otherwise it yields every `.py` file below
the root. -/
def rglob_py (fs : FileSystem) (root : String) : List String :=
  if fs.dirs.contains root then
    fs.files.filter fun f => pyStartsWith f (root ++ "/") && ".py".toList.isSuffixOf f.toList
  else []

/-- Model of `_get_python_files` for a project rooted at `root`. -/
def get_python_files (fs : FileSystem) (root : String) : List String :=
  filter_sort_files (rglob_py fs root)

/-- A whole run, from the filesystem, as `main` performs it:
`CodeAnalyzer(project_root)` followed by `analyze_project()`.  The
constructor executes `self.output_dir.mkdir(exist_ok=True)` on
`project_root / "code"` with `parents=False`; with CPython semantics
`os.mkdir` raises `FileNotFoundError` when the parent directory —
the project root — does not exist (`exist_ok` suppresses only
`FileExistsError`), so a run on a missing root aborts there, before any
file is enumerated or read.  When the root exists, construction succeeds
(an already-existing `code` directory is tolerated; we assume no
conflicting non-directory entry of that name) and the analysis proceeds. -/
def run_analyzer (fs : FileSystem) (root : String) (t : Thresholds)
    (timestamp : String) (readFile : String → SourceFile) :
    Except String Report :=
  if fs.dirs.contains root then
    .ok (analyze_project t timestamp (rglob_py fs root) readFile)
  else
    .error "FileNotFoundError"

/-! ### Structural per-node sums (for relating `ast.walk` to the tree) -/

mutual
/-- Sum of `f` over every node of the tree — each node exactly once, the
operator node of each `BoolOp` included (it is a child node). -/
def nodeSum (f : Node → Nat) : Node → Nat
  | .module body => f (.module body) + nodeSumL f body
  | .functionDef a b c d body =>
      f (.functionDef a b c d body) + nodeSumL f body
  | .classDef a b body => f (.classDef a b body) + nodeSumL f body
  | .ifStmt test body orelse ln =>
      f (.ifStmt test body orelse ln) + nodeSum f test +
        nodeSumL f body + nodeSumL f orelse
  | .whileStmt test body orelse ln =>
      f (.whileStmt test body orelse ln) + nodeSum f test +
        nodeSumL f body + nodeSumL f orelse
  | .forStmt target iter body orelse ln =>
      f (.forStmt target iter body orelse ln) + nodeSum f target +
        nodeSum f iter + nodeSumL f body + nodeSumL f orelse
  | .withStmt body ln => f (.withStmt body ln) + nodeSumL f body
  | .tryStmt body handlers orelse finalbody =>
      f (.tryStmt body handlers orelse finalbody) + nodeSumL f body +
        nodeSumL f handlers + nodeSumL f orelse + nodeSumL f finalbody
  | .exceptHandler body => f (.exceptHandler body) + nodeSumL f body
  | .boolOp op values =>
      f (.boolOp op values) + f (.opNode op) + nodeSumL f values
  | .opNode op => f (.opNode op)
  | .importStmt ln => f (.importStmt ln)
  | .importFrom ln => f (.importFrom ln)
  | .exprStmt value ln => f (.exprStmt value ln) + nodeSum f value
  | .nameExpr a ln => f (.nameExpr a ln)
  | .constant ln => f (.constant ln)
  | .passStmt ln => f (.passStmt ln)

/-- Sum of `f` over every node of every tree of the list. -/
def nodeSumL (f : Node → Nat) : List Node → Nat
  | [] => 0
  | n :: ns => nodeSum f n + nodeSumL f ns
end

/-! ### Claim-side definitions (stated from the spec's words, for
comparison against the source-side definitions above) -/

/-- Per-node contribution as claim C4 words it: `+1` for each `if`,
`while`, `for` node and each exception-handler clause, `+(N-1)` for each
boolean expression combining `N` operands, and nothing else — in
particular an `And`/`Or` operator node contributes 0 here. -/
def claimContribC4 : Node → Nat
  | .ifStmt _ _ _ _ => 1
  | .whileStmt _ _ _ _ => 1
  | .forStmt _ _ _ _ _ => 1
  | .exceptHandler _ => 1
  | .boolOp _ values => values.length - 1
  | _ => 0

/-- Cyclomatic complexity exactly as claim C4 states the formula. -/
def claimed_complexity (tree : Node) : Nat := 1 + nodeSum claimContribC4 tree

/-- Indicator of an `And`/`Or` operator node. -/
def opNodeIndicator : Node → Nat
  | .opNode _ => 1
  | _ => 0

/-- Number of boolean-operator (`ast.And`/`ast.Or`) nodes in the tree,
one per `BoolOp`. -/
def countOperatorNodes (tree : Node) : Nat := nodeSum opNodeIndicator tree

/-- Counterexample input for claim C4: `if a and b: pass`. -/
def exC4 : Node :=
  .module [.ifStmt (.boolOp .andK [.nameExpr "a" 1, .nameExpr "b" 1])
    [.passStmt 2] [] 1]

/-- The maintainability formula as claim C3 words it (the clamp of the
raw score); division by zero would yield 0 in `ℚ`, but the claim handles
`loc = 0` separately. -/
def clampedFormulaC3 (loc complexity comments : Nat) : ℚ :=
  max 0 (min 100
    (100 - min ((complexity : ℚ) / 50) 1.0 * 40
         - min ((loc : ℚ) / 1000) 1.0 * 0.5 * 20
         + (comments : ℚ) / (loc : ℚ) * 15))

/-- A chain of `k` nested `if` statements (`if a:` at lines
`ln, ln+1, ...`), with a `pass` innermost. -/
def nestChain : Nat → Nat → Node
  | 0, ln => .passStmt ln
  | k + 1, ln => .ifStmt (.nameExpr "a" ln) [nestChain k (ln + 1)] [] ln

/-- C1 counterexample data: file A has one over-long line (a `low` issue),
file B fails to parse (a `critical` issue), file C has a 6-parameter
function (a `medium` issue), file D has 5 nested `if`s (a `high` issue). -/
def fileA : SourceFile :=
  { path := "a.py"
    content := String.mk (List.replicate 121 'w')
    parsed := .ok (.module
      [.exprStmt (.nameExpr (String.mk (List.replicate 121 'w')) 1) 1]) }

/-- C1 counterexample data, file B: `def f(:` does not parse. -/
def fileB : SourceFile :=
  { path := "b.py"
    content := "def f(:"
    parsed := .err (some 1) "invalid syntax" }

/-- C1 counterexample data, file C: a function with six parameters. -/
def fileC : SourceFile :=
  { path := "c.py"
    content := "def f(a, b, c, d, e, g):\n    pass"
    parsed := .ok (.module [.functionDef "f" 6 1 2 [.passStmt 2]]) }

/-- C1 counterexample data, file D: five nested `if`s. -/
def fileD : SourceFile :=
  { path := "d.py"
    content := "if a:\n if a:\n  if a:\n   if a:\n    if a:\n     pass"
    parsed := .ok (.module [nestChain 5 1]) }

/-- The raw enumeration for the C1 counterexample run (already sorted,
nothing excluded). -/
def exC1Found : List String := ["a.py", "b.py", "c.py", "d.py"]

/-- The read-and-parse oracle for the C1 counterexample run. -/
def exC1ReadFile : String → SourceFile := fun p =>
  if p = "a.py" then fileA
  else if p = "b.py" then fileB
  else if p = "c.py" then fileC
  else fileD

/-- C7 counterexample data: a filesystem in which `/missing` is not an
existing directory. -/
def fsC7 : FileSystem := { dirs := ["/home"], files := ["/home/x.py"] }

/-- A trivial read oracle (never consulted on an empty enumeration). -/
def emptyReadFile : String → SourceFile := fun p =>
  { path := p, content := "", parsed := .ok (.module []) }

end AliceCode

namespace AliceCode

/-! ## General lemmas -/

theorem nodeSumL_append (f : Node → Nat) (l₁ l₂ : List Node) :
    nodeSumL f (l₁ ++ l₂) = nodeSumL f l₁ + nodeSumL f l₂ := by
  induction l₁ with
  | nil => simp only [List.nil_append, nodeSumL]; omega
  | cons n ns ih =>
    simp only [List.cons_append, nodeSumL, List.append_eq] at ih ⊢
    omega

theorem nodeSum_children (f : Node → Nat) (n : Node) :
    nodeSum f n = f n + nodeSumL f (Node.children n) := by
  cases n <;> simp [nodeSum, Node.children, nodeSumL, nodeSumL_append] <;> omega

theorem walkAux_map_sum (f : Node → Nat) :
    ∀ (N : Nat) (l : List Node), Node.sizeL l ≤ N →
      ((Node.walkAux l).map f).sum = nodeSumL f l := by
  intro N
  induction N with
  | zero =>
    intro l h
    match l with
    | [] => simp [Node.walkAux, nodeSumL]
    | n :: ns =>
      exfalso
      have h1 := Node.size_pos n
      simp only [Node.sizeL] at h
      omega
  | succ N ih =>
    intro l h
    match l with
    | [] => simp [Node.walkAux, nodeSumL]
    | n :: ns =>
      have hlt := Node.sizeL_children_lt n
      have h1 : Node.sizeL (ns ++ Node.children n) ≤ N := by
        rw [Node.sizeL_append]
        simp only [Node.sizeL] at h
        omega
      calc ((Node.walkAux (n :: ns)).map f).sum
          = f n + ((Node.walkAux (ns ++ Node.children n)).map f).sum := by
            rw [Node.walkAux]; simp
        _ = f n + nodeSumL f (ns ++ Node.children n) := by rw [ih _ h1]
        _ = f n + (nodeSumL f ns + nodeSumL f (Node.children n)) := by
            rw [nodeSumL_append]
        _ = nodeSumL f (n :: ns) := by
            simp only [nodeSumL]
            rw [nodeSum_children]
            omega

theorem walk_map_sum (f : Node → Nat) (tree : Node) :
    ((Node.walk tree).map f).sum = nodeSum f tree := by
  have h := walkAux_map_sum f (Node.sizeL [tree]) [tree] le_rfl
  simpa [Node.walk, nodeSumL] using h

theorem sum_map_add {α : Type} (l : List α) (f g : α → Nat) :
    (l.map fun x => f x + g x).sum = (l.map f).sum + (l.map g).sum := by
  induction l with
  | nil => simp
  | cons a as ih => simp [ih]; omega

theorem charListLe_refl : ∀ as, charListLe as as = true := by
  intro as
  induction as with
  | nil => rfl
  | cons a as ih => simp [charListLe, ih]

theorem charListLe_total : ∀ as bs, (charListLe as bs || charListLe bs as) = true := by
  intro as
  induction as with
  | nil => intro bs; simp [charListLe]
  | cons a as ih =>
    intro bs
    cases bs with
    | nil => simp [charListLe]
    | cons b bs =>
      simp only [charListLe, Bool.or_eq_true, Bool.and_eq_true, beq_iff_eq,
        decide_eq_true_eq] at *
      rcases lt_trichotomy a b with h | h | h
      · left; left; exact h
      · subst h
        rcases ih bs with h' | h'
        · left; right; exact ⟨rfl, h'⟩
        · right; right; exact ⟨rfl, h'⟩
      · right; left; exact h

theorem charListLe_trans :
    ∀ as bs cs, charListLe as bs = true → charListLe bs cs = true →
      charListLe as cs = true := by
  intro as
  induction as with
  | nil => intro bs cs _ _; rfl
  | cons a as ih =>
    intro bs cs h1 h2
    cases bs with
    | nil => simp [charListLe] at h1
    | cons b bs =>
      cases cs with
      | nil => simp [charListLe] at h2
      | cons c cs =>
        simp only [charListLe, Bool.or_eq_true, Bool.and_eq_true, beq_iff_eq,
          decide_eq_true_eq] at *
        rcases h1 with h1 | ⟨rfl, h1⟩
        · rcases h2 with h2 | ⟨rfl, h2⟩
          · exact Or.inl (lt_trans h1 h2)
          · exact Or.inl h1
        · rcases h2 with h2 | ⟨rfl, h2⟩
          · exact Or.inl h2
          · exact Or.inr ⟨rfl, ih bs cs h1 h2⟩

theorem charListLe_antisymm :
    ∀ as bs, charListLe as bs = true → charListLe bs as = true → as = bs := by
  intro as
  induction as with
  | nil =>
    intro bs _ h2
    cases bs with
    | nil => rfl
    | cons b bs => simp [charListLe] at h2
  | cons a as ih =>
    intro bs h1 h2
    cases bs with
    | nil => simp [charListLe] at h1
    | cons b bs =>
      simp only [charListLe, Bool.or_eq_true, Bool.and_eq_true, beq_iff_eq,
        decide_eq_true_eq] at h1 h2
      rcases h1 with h1 | ⟨rfl, h1⟩
      · rcases h2 with h2 | ⟨rfl, _⟩
        · exact absurd h1 (not_lt.mpr h2.le)
        · exact absurd h1 (lt_irrefl _)
      · rcases h2 with h2 | ⟨_, h2⟩
        · exact absurd h2 (lt_irrefl _)
        · rw [ih bs h1 h2]

theorem pathLe_antisymm (a b : String) :
    pathLe a b = true → pathLe b a = true → a = b := by
  intro h1 h2
  exact String.ext (charListLe_antisymm _ _ h1 h2)

instance pathLe_isAntisymm : IsAntisymm String (fun a b => pathLe a b = true) :=
  ⟨pathLe_antisymm⟩

theorem pathLe_trans (a b c : String) :
    pathLe a b = true → pathLe b c = true → pathLe a c = true :=
  charListLe_trans _ _ _

theorem pathLe_total (a b : String) : (pathLe a b || pathLe b a) = true :=
  charListLe_total _ _

/-- Sorting the filtered enumeration is canonical: two enumerations of the
same multiset of paths filter and sort to the same list. -/
theorem filter_sort_files_perm_eq {l₁ l₂ : List String} (h : l₁.Perm l₂) :
    filter_sort_files l₁ = filter_sort_files l₂ := by
  unfold filter_sort_files
  apply @List.eq_of_perm_of_sorted String (fun a b : String => pathLe a b = true) _ _ _
  · exact (List.mergeSort_perm _ _).trans
      ((h.filter _).trans (List.mergeSort_perm _ _).symm)
  · exact @List.sorted_mergeSort String pathLe pathLe_trans pathLe_total _
  · exact @List.sorted_mergeSort String pathLe pathLe_trans pathLe_total _

/-! ## Claim C4 -/

/-- C4, corrected: the computed cyclomatic complexity is the claim's
formula plus one extra unit per boolean expression, because `ast.walk`
also visits each `BoolOp`'s `And`/`Or` operator child node and the
`elif isinstance(node, (ast.And, ast.Or))` branch adds 1 for it; so an
`N`-operand boolean expression contributes `N`, not `N-1`. -/
theorem complexity_eq_claimed_plus_operator_nodes (tree : Node) :
    calculate_complexity tree = claimed_complexity tree + countOperatorNodes tree := by
  unfold calculate_complexity claimed_complexity countOperatorNodes
  have hpt : complexityContrib = fun n => claimContribC4 n + opNodeIndicator n := by
    funext n; cases n <;> rfl
  rw [hpt, sum_map_add, walk_map_sum, walk_map_sum]
  omega

/-- C4, counterexample: on `if a and b: pass` the code computes complexity
4 (1 base, +1 `If`, +1 for the 2-operand `BoolOp`, +1 for its `And`
operator node), while the claim's formula gives 3. -/
theorem complexity_boolop_counterexample :
    calculate_complexity exC4 = 4 ∧ claimed_complexity exC4 = 3 ∧
      calculate_complexity exC4 ≠ claimed_complexity exC4 := by
  have h1 : calculate_complexity exC4 = 4 := by
    simp [calculate_complexity, exC4, Node.walk, Node.walkAux, Node.children,
      complexityContrib]
  have h2 : claimed_complexity exC4 = 3 := by
    simp [claimed_complexity, exC4, nodeSum, nodeSumL, claimContribC4]
  exact ⟨h1, h2, by omega⟩

/-! ## Claim C8 -/

/-- C8: the whole analysis is a deterministic function of the tree's
contents and the configuration — for any two enumerations of the same
set of paths (the raw directory-walk order is arbitrary) and any two
timestamps, the reports agree on everything except the timestamp, because
the enumeration is canonically sorted before processing. -/
theorem analysis_deterministic_of_perm (t : Thresholds) (ts₁ ts₂ : String)
    (found₁ found₂ : List String) (readFile : String → SourceFile)
    (h : found₁.Perm found₂) :
    (analyze_project t ts₁ found₁ readFile).summary
        = (analyze_project t ts₂ found₂ readFile).summary ∧
      (analyze_project t ts₁ found₁ readFile).issues
        = (analyze_project t ts₂ found₂ readFile).issues ∧
      (analyze_project t ts₁ found₁ readFile).metrics
        = (analyze_project t ts₂ found₂ readFile).metrics ∧
      (analyze_project t ts₁ found₁ readFile).issues_detail
        = (analyze_project t ts₂ found₂ readFile).issues_detail := by
  have hfiles := filter_sort_files_perm_eq h
  unfold analyze_project
  rw [hfiles]
  exact ⟨rfl, rfl, rfl, rfl⟩

/-- Witness for C8 at a concrete permuted pair of enumerations. -/
theorem analysis_deterministic_of_perm_witness :
    (["b.py", "a.py"] : List String).Perm ["a.py", "b.py"] ∧
      (analyze_project THRESHOLDS "t1" ["b.py", "a.py"] emptyReadFile).summary
        = (analyze_project THRESHOLDS "t2" ["a.py", "b.py"] emptyReadFile).summary :=
  have hp : (["b.py", "a.py"] : List String).Perm ["a.py", "b.py"] :=
    List.Perm.swap "a.py" "b.py" []
  ⟨hp, (analysis_deterministic_of_perm THRESHOLDS "t1" "t2" _ _ emptyReadFile hp).1⟩

/-! ## Claim C1 -/

/-- The imperative issue accumulation (`self.issues` grows by appends as
files are processed) equals the flat concatenation of per-file issue
lists, in enumeration order. -/
theorem foldl_analyze_issues (t : Thresholds) (readFile : String → SourceFile) :
    ∀ (paths : List String) (st : AnalyzerState),
      (paths.foldl (fun s p => analyze_file t s (readFile p)) st).issues
        = st.issues ++ (paths.flatMap fun p => detect_issues t (readFile p)) := by
  intro paths
  induction paths with
  | nil => intro st; simp
  | cons p ps ih =>
    intro st
    simp only [List.foldl_cons, List.flatMap_cons]
    rw [ih]
    simp [analyze_file]

/-- C1, amended: the serialized `issues_detail` array presents the issues
in original detection order — file order from the (sorted) enumerator,
then rule order within a file — with no re-sorting by severity.
(Severity-based ranking exists only in the truncated console listing.) -/
theorem issues_detail_detection_order (t : Thresholds) (ts : String)
    (found : List String) (readFile : String → SourceFile) :
    (analyze_project t ts found readFile).issues_detail
      = (filter_sort_files found).flatMap fun p => detect_issues t (readFile p) := by
  unfold analyze_project generate_report
  simp [foldl_analyze_issues]

set_option maxRecDepth 200000 in
theorem detect_fileA_severities :
    (detect_issues THRESHOLDS fileA).map CodeIssue.severity = ["low"] := by
  simp only [detect_issues, fileA]
  simp [detect_ast_issues, Node.walk, Node.walkAux, Node.children, nodeIssues,
    List.map_append]
  decide

theorem detect_fileB_severities :
    (detect_issues THRESHOLDS fileB).map CodeIssue.severity = ["critical"] := by
  simp only [detect_issues, fileB]
  simp [List.map_append]
  decide

theorem detect_fileC_severities :
    (detect_issues THRESHOLDS fileC).map CodeIssue.severity = ["medium"] := by
  simp only [detect_issues, fileC]
  simp [detect_ast_issues, Node.walk, Node.walkAux, Node.children, nodeIssues,
    THRESHOLDS, List.map_append]
  decide

theorem detect_fileD_severities :
    (detect_issues THRESHOLDS fileD).map CodeIssue.severity = ["high"] := by
  simp only [detect_issues, fileD]
  simp [nestChain, detect_ast_issues, Node.walk, Node.walkAux, Node.children,
    nodeIssues, nestingIssue, get_nesting_level, nestLoop, isNestKind, THRESHOLDS,
    List.map_append]
  decide

set_option maxRecDepth 100000 in
/-- C1, counterexample: a run whose four issues are detected in severity
order `low, critical, medium, high` serializes `issues_detail` in exactly
that order, not re-sorted to `critical, high, medium, low`. -/
theorem issues_detail_order_counterexample :
    ((analyze_project THRESHOLDS "ts" exC1Found exC1ReadFile).issues_detail.map
        CodeIssue.severity) = ["low", "critical", "medium", "high"] ∧
      (["low", "critical", "medium", "high"] : List String)
        ≠ ["critical", "high", "medium", "low"] := by
  constructor
  · have hfilter : (exC1Found.filter fun f =>
        !(excludePatterns.any fun pattern => pyContains f pattern)) = exC1Found := by
      decide
    have hsort : filter_sort_files exC1Found = exC1Found := by
      unfold filter_sort_files
      rw [hfilter]
      exact List.mergeSort_of_sorted (by decide)
    have ha : exC1ReadFile "a.py" = fileA := rfl
    have hb : exC1ReadFile "b.py" = fileB := rfl
    have hc : exC1ReadFile "c.py" = fileC := rfl
    have hd : exC1ReadFile "d.py" = fileD := rfl
    unfold analyze_project generate_report
    rw [hsort]
    simp only [foldl_analyze_issues, List.nil_append]
    show ((exC1Found.flatMap fun p =>
      detect_issues THRESHOLDS (exC1ReadFile p)).map CodeIssue.severity) = _
    simp only [exC1Found, List.flatMap_cons, List.flatMap_nil, List.append_nil,
      List.map_append, ha, hb, hc, hd, detect_fileA_severities,
      detect_fileB_severities, detect_fileC_severities, detect_fileD_severities]
    rfl
  · decide

/-! ## Claim C5 -/

/-- C5: nesting depth as the code computes it (`_get_nesting_level`,
descending through nested conditional/loop/`with` children).  A chain
whose outermost `if` has depth exactly 4 — one more than the hardcoded
threshold 3 — yields exactly one `high`/`complexity` issue, at the
outermost node's line; depth exactly 3 yields none. -/
theorem deep_nesting_threshold_behaviour (rel_path : String) :
    get_nesting_level (nestChain 5 1) 0 = 4 ∧
      get_nesting_level (nestChain 4 1) 0 = 3 ∧
      detect_ast_issues THRESHOLDS (.module [nestChain 5 1]) rel_path
        = [{ file := rel_path, line := 1, severity := "high",
             category := "complexity",
             message := "nesting is too deep (level 4)",
             suggestion := "reduce nesting with early returns or extracted functions" }] ∧
      detect_ast_issues THRESHOLDS (.module [nestChain 4 1]) rel_path = [] := by
  refine ⟨?_, ?_, ?_, ?_⟩ <;>
    · simp [nestChain, detect_ast_issues, Node.walk, Node.walkAux, Node.children,
        nodeIssues, nestingIssue, get_nesting_level, nestLoop, isNestKind, THRESHOLDS]
      try decide

/-! ## Claim C2 -/

/-- Every text-based issue is `low`, with category `style`, `todo` or
`debug` — in particular never `critical`, `complexity` or `design`. -/
theorem detect_text_issues_fields (t : Thresholds) (lines : List String)
    (p : String) :
    ∀ i ∈ detect_text_issues t lines p,
      i.severity = "low" ∧
        (i.category = "style" ∨ i.category = "todo" ∨ i.category = "debug") := by
  intro i hi
  simp only [detect_text_issues, List.mem_flatMap] at hi
  obtain ⟨x, _, hi⟩ := hi
  simp only [textLineIssues, List.mem_append] at hi
  rcases hi with (hi | hi) | hi <;> split_ifs at hi <;> simp_all

/-- C2: on a file whose text fails to parse, issue detection emits exactly
the single `critical`/`syntax` issue (at the reported line, or 0 when the
line is unknown) followed by the text-based issues; it emits zero
structure-dependent (`complexity`/`design`) issues; and it is a total
function — the failure never escapes to the caller. -/
theorem syntax_failure_issue_behaviour (t : Thresholds) (lineno : Option Nat)
    (msg p content : String) :
    detect_issues t { path := p, content := content, parsed := .err lineno msg }
        = { file := p, line := lineno.getD 0, severity := "critical",
            category := "syntax", message := "syntax error: " ++ msg,
            suggestion := "fix the syntax" }
          :: detect_text_issues t (pySplit content '\n') p ∧
      (detect_issues t { path := p, content := content, parsed := .err lineno msg }).countP
          (fun i => i.severity == "critical" && i.category == "syntax") = 1 ∧
      (detect_issues t { path := p, content := content, parsed := .err lineno msg }).countP
          (fun i => i.category == "complexity" || i.category == "design") = 0 := by
  have heq : detect_issues t { path := p, content := content, parsed := .err lineno msg }
      = ({ file := p, line := lineno.getD 0, severity := "critical",
           category := "syntax", message := "syntax error: " ++ msg,
           suggestion := "fix the syntax" } : CodeIssue)
        :: detect_text_issues t (pySplit content '\n') p := by
    simp [detect_issues]
  refine ⟨heq, ?_, ?_⟩
  · rw [heq, List.countP_cons]
    have h0 : (detect_text_issues t (pySplit content '\n') p).countP
        (fun i => i.severity == "critical" && i.category == "syntax") = 0 := by
      rw [List.countP_eq_zero]
      intro i hi
      have hf := (detect_text_issues_fields t _ p i hi).1
      simp [hf]
    rw [h0]
    simp
  · rw [heq, List.countP_cons]
    have h0 : (detect_text_issues t (pySplit content '\n') p).countP
        (fun i => i.category == "complexity" || i.category == "design") = 0 := by
      rw [List.countP_eq_zero]
      intro i hi
      rcases (detect_text_issues_fields t _ p i hi).2 with hf | hf | hf <;> simp [hf]
    rw [h0]
    simp

/-! ## Claim C3 -/

/-- C3: for `loc > 0` the maintainability index is exactly the clamp to
`[0,100]` of the claim's formula; for `loc = 0` it is exactly `100.0` with
all penalties skipped; and it always lies in `[0,100]`. -/
theorem maintainability_formula_and_bounds (loc complexity comments : Nat) :
    (loc ≠ 0 → calculate_maintainability loc complexity comments
        = clampedFormulaC3 loc complexity comments) ∧
      (loc = 0 → calculate_maintainability loc complexity comments = 100.0) ∧
      0 ≤ calculate_maintainability loc complexity comments ∧
      calculate_maintainability loc complexity comments ≤ 100 := by
  refine ⟨?_, ?_, ?_, ?_⟩
  · intro h
    unfold calculate_maintainability clampedFormulaC3
    rw [if_neg h, if_pos (Nat.pos_of_ne_zero h)]
    norm_num
  · intro h
    unfold calculate_maintainability
    rw [if_pos h]
  · unfold calculate_maintainability
    split
    · norm_num
    · exact le_max_of_le_left (by norm_num : (0 : ℚ) ≤ 0.0)
  · unfold calculate_maintainability
    split
    · norm_num
    · exact max_le (by norm_num) (le_trans (min_le_left _ _) (by norm_num))

/-- Witness for C3, at `loc = 0` and at a positive `loc`. -/
theorem maintainability_formula_witness :
    calculate_maintainability 0 7 3 = 100.0 ∧
      calculate_maintainability 10 4 2 = clampedFormulaC3 10 4 2 :=
  ⟨(maintainability_formula_and_bounds 0 7 3).2.1 rfl,
    (maintainability_formula_and_bounds 10 4 2).1 (by norm_num)⟩

/-! ## Claim C10 -/

/-- C10: with `loc > 0` and the complexity fixed, the maintainability
index is monotonically nondecreasing in the number of comment lines. -/
theorem maintainability_monotone_in_comments (loc complexity c₁ c₂ : Nat)
    (hloc : 0 < loc) (h : c₁ ≤ c₂) :
    calculate_maintainability loc complexity c₁
      ≤ calculate_maintainability loc complexity c₂ := by
  unfold calculate_maintainability
  have hne : ¬loc = 0 := Nat.pos_iff_ne_zero.mp hloc
  rw [if_neg hne, if_neg hne, if_pos hloc, if_pos hloc]
  apply max_le_max le_rfl
  apply min_le_min le_rfl
  have hq : (0 : ℚ) < (loc : ℚ) := by exact_mod_cast hloc
  have hc : (c₁ : ℚ) / (loc : ℚ) * 15 ≤ (c₂ : ℚ) / (loc : ℚ) * 15 := by
    apply mul_le_mul_of_nonneg_right _ (by norm_num)
    exact (div_le_div_iff_of_pos_right hq).mpr (by exact_mod_cast h)
  linarith

/-- Witness for C10. -/
theorem maintainability_monotone_witness :
    0 < 10 ∧ 1 ≤ 3 ∧
      calculate_maintainability 10 5 1 ≤ calculate_maintainability 10 5 3 :=
  ⟨by norm_num, by norm_num,
    maintainability_monotone_in_comments 10 5 1 3 (by norm_num) (by norm_num)⟩

/-! ## Claim C6 -/

/-- A line whose stripped text starts with `#` is not blank. -/
theorem hash_not_empty (s : String) :
    pyStartsWith s "#" = true → s.isEmpty = false := by
  intro h
  unfold pyStartsWith at h
  cases hs : s.toList with
  | nil => rw [hs] at h; simp [List.isPrefixOf] at h
  | cons c cs =>
    cases hemp : s.isEmpty with
    | false => rfl
    | true =>
      exfalso
      have hsnil : s = "" := (String.isEmpty_iff s).mp hemp
      rw [hsnil] at hs
      simp at hs

/-- Each physical line falls in exactly one of the three categories
(code, comment-only, blank). -/
theorem line_category_partition (l : String) :
    (if isCodeLine l then 1 else 0) + (if isCommentLine l then 1 else 0)
      + (if isBlankLine l then 1 else 0) = 1 := by
  unfold isCodeLine isCommentLine isBlankLine
  cases he : (pyStrip l).isEmpty with
  | true =>
    have hh : pyStartsWith (pyStrip l) "#" = false := by
      cases hh : pyStartsWith (pyStrip l) "#"
      · rfl
      · rw [hash_not_empty _ hh] at he; exact absurd he (by simp)
    simp [he, hh]
  | false =>
    cases hh : pyStartsWith (pyStrip l) "#" <;> simp [he, hh]

/-- The three line counters sum to the number of physical lines. -/
theorem counts_partition (lines : List String) :
    lines.countP isCodeLine + lines.countP isCommentLine
      + lines.countP isBlankLine = lines.length := by
  induction lines with
  | nil => simp
  | cons l ls ih =>
    simp only [List.countP_cons, List.length_cons]
    have h := line_category_partition l
    omega

/-- C6: `lines_of_code + comment_lines + blank_lines` never exceeds the
file's physical line count (in fact the three categories partition the
lines exactly). -/
theorem line_categories_bound (relPath content : String) (parsed : ParseResult) :
    (calculate_metrics relPath content parsed).lines_of_code
      + (calculate_metrics relPath content parsed).comment_lines
      + (calculate_metrics relPath content parsed).blank_lines
      ≤ (pySplit content '\n').length := by
  have h := counts_partition (pySplit content '\n')
  simp only [calculate_metrics]
  omega

/-! ## Claim C7 -/

/-- C7: on a root path that does not exist, a run — construction of the
analyzer followed by `analyze_project`, as `main` performs it — fails with
the NotFound condition raised by `output_dir.mkdir(exist_ok=True)` in
`CodeAnalyzer.__init__` (`parents=False`, so a missing parent raises
`FileNotFoundError`), aborting before any file is enumerated, read or
processed; in particular it never completes normally with a report over an
empty file list. -/
theorem missing_root_aborts (fs : FileSystem) (root : String) (t : Thresholds)
    (ts : String) (readFile : String → SourceFile)
    (h : fs.dirs.contains root = false) :
    run_analyzer fs root t ts readFile = .error "FileNotFoundError" ∧
      ∀ r : Report, run_analyzer fs root t ts readFile ≠ .ok r := by
  have herr : run_analyzer fs root t ts readFile = .error "FileNotFoundError" := by
    unfold run_analyzer
    rw [h]
    simp
  exact ⟨herr, fun r hr => by rw [herr] at hr; cases hr⟩

/-- Witness for C7, at the concrete filesystem in which `/missing` is not
an existing directory. -/
theorem missing_root_aborts_witness :
    fsC7.dirs.contains "/missing" = false ∧
      run_analyzer fsC7 "/missing" THRESHOLDS "w" emptyReadFile
        = .error "FileNotFoundError" :=
  ⟨by decide,
    (missing_root_aborts fsC7 "/missing" THRESHOLDS "w" emptyReadFile (by decide)).1⟩

/-! ## Claim C9 -/

/-- Substring containment is antitone in the needle: if `n₁` occurs in
the haystack and `n₂` is a prefix of `n₁`, then `n₂` occurs too. -/
theorem containsSub_of_prefix :
    ∀ (hay n₁ n₂ : List Char), n₂.isPrefixOf n₁ = true →
      containsSub n₁ hay = true → containsSub n₂ hay = true := by
  intro hay
  induction hay with
  | nil =>
    intro n₁ n₂ hp hc
    simp only [containsSub, List.isEmpty_iff] at hc
    subst hc
    rw [List.isPrefixOf_iff_prefix] at hp
    simp only [containsSub, List.isEmpty_iff]
    exact List.prefix_nil.mp hp
  | cons c rest ih =>
    intro n₁ n₂ hp hc
    simp only [containsSub, Bool.or_eq_true] at hc ⊢
    rcases hc with hc | hc
    · left
      rw [List.isPrefixOf_iff_prefix] at hp hc ⊢
      exact hp.trans hc
    · right
      exact ih n₁ n₂ hp hc

/-- An occurrence of `"logger"` contains an occurrence of `"log"`. -/
theorem pyContains_log_of_logger (s : String) :
    pyContains s "logger" = true → pyContains s "log" = true := by
  intro h
  exact containsSub_of_prefix _ _ _ (by decide) h

/-- C9: for a line whose stripped text starts with `print(`, a
`low`/`debug` issue is emitted iff the line contains neither the substring
`log` in any character case (which also covers `logger`, and incidental
words like `dialog`) nor any banner glyph. -/
theorem debug_print_exemption (line : String)
    (h : pyStartsWith (pyStrip line) "print(" = true) (t : Thresholds)
    (p : String) (i : Nat) :
    ((textLineIssues t p i line).countP fun issue => issue.category == "debug")
      = if !pyContains (pyLower line) "log"
            && !(bannerKeywords.any fun keyword => pyContains line keyword)
        then 1 else 0 := by
  have hdbg : debugPrintCondition line
      = (!pyContains (pyLower line) "log"
          && !(bannerKeywords.any fun keyword => pyContains line keyword)) := by
    unfold debugPrintCondition
    rw [h]
    cases hlog : pyContains (pyLower line) "log" with
    | true => simp [hlog]
    | false =>
      have hlogger : pyContains (pyLower line) "logger" = false := by
        cases hl : pyContains (pyLower line) "logger"
        · rfl
        · rw [pyContains_log_of_logger _ hl] at hlog
          exact hlog
      simp [hlogger, hlog]
  unfold textLineIssues
  rw [List.countP_append, List.countP_append, hdbg]
  split_ifs <;> simp [List.countP_cons]

/-- Witness for C9 at `print(value)` (no `log`, no banner). -/
theorem debug_print_exemption_witness :
    pyStartsWith (pyStrip "  print(value)") "print(" = true ∧
      ((textLineIssues THRESHOLDS "x.py" 1 "  print(value)").countP
          fun issue => issue.category == "debug")
        = if !pyContains (pyLower "  print(value)") "log"
              && !(bannerKeywords.any fun keyword => pyContains "  print(value)" keyword)
          then 1 else 0 :=
  ⟨by decide, debug_print_exemption "  print(value)" (by decide) THRESHOLDS "x.py" 1⟩

end AliceCode

